import Mathlib

/-!
Verification of the collateral-vault backend's Vault Ledger Consistency
Engine against its natural-language specification.

The Rust sources are shallowly embedded:
- `VaultRow` mirrors the vault rows of `src/models/database.rs` /
  `src/db/mod.rs` (ids, token identifiers and timestamps are omitted:
  no claim mentions them except that `updated_at` is bumped, which is a
  wall-clock effect outside the embedding).  Balances are the signed
  64-bit DB columns, embedded as `Int`.
- `Database.update_vault_balance` embeds the SQL `UPDATE vaults SET ...
  WHERE owner = $1` of `src/db/mod.rs`: every matching row receives the
  deltas, and a statement matching zero rows still reports success.
- `TransactionBuilder` embeds `src/services/transaction_service.rs`.
- `VaultService.*` embed the operations of
  `src/services/vault_service.rs`, `VaultManager.*` those of
  `src/vault_manager.rs`, and `BalanceTracker.reconcile_vault` the
  reconciliation step of `src/balance_tacker.rs`.
- Ledger interaction is embedded by effect counters (`built_txs`,
  `submit_attempts`, `submitted`) plus boolean fault parameters for the
  outcome of `send_transaction` / on-chain fetches / store calls.
-/

namespace CollateralVault

/-- A mirror-store vault row.  Fields follow `models/database.rs` and the
`VaultRecord` of `db/mod.rs`; the i64 balance columns become `Int`. -/
structure VaultRow where
  owner : String
  vault_address : String
  total_balance : Int
  locked_balance : Int
  available_balance : Int
  total_deposited : Int
  total_withdrawn : Int
deriving DecidableEq, Repr

/-- The `vaults` table, in row order. -/
abbrev VaultDb := List VaultRow

/-- `SELECT ... FROM vaults WHERE owner = $1` fetching one row
(`Database::get_vault_by_owner` in `db/mod.rs`). -/
def getVault : VaultDb → String → Option VaultRow
  | [], _ => none
  | v :: rest, o => if v.owner = o then some v else getVault rest o

/-- An `UPDATE ... WHERE owner = $1` applied to every matching row; rows
of other owners are untouched.  Matching zero rows is not an error. -/
def updateOwner : VaultDb → String → (VaultRow → VaultRow) → VaultDb
  | [], _, _ => []
  | v :: rest, o, g => (if v.owner = o then g v else v) :: updateOwner rest o g

/-- The balance-delta row mutation of `Database::update_vault_balance`
(`db/mod.rs`): `total_balance += total_delta`, `locked_balance +=
locked_delta`, `available_balance += available_delta`. -/
def applyDelta (total_delta locked_delta available_delta : Int) (v : VaultRow) : VaultRow :=
  { v with
    total_balance := v.total_balance + total_delta
    locked_balance := v.locked_balance + locked_delta
    available_balance := v.available_balance + available_delta }

namespace Database

/-- `Database::update_vault_balance` of `db/mod.rs`: a single SQL UPDATE
adding the three deltas to the row of `owner`.  When no row matches the
statement affects zero rows and still reports success, so the function
is total and an absent owner leaves the table unchanged. -/
def update_vault_balance (db : VaultDb) (owner : String)
    (total_delta locked_delta available_delta : Int) : VaultDb :=
  updateOwner db owner (applyDelta total_delta locked_delta available_delta)

end Database

/-- Modelled from the spec: `DatabasePool::update_vault_balances`, the
closure-based atomic balance update called by `vault_service.rs`, is not
defined under `src/` (only its call sites are).  Per the spec's Mirror
Store capability it applies the closure to the owner's row and persists
the result, failing when the closure fails; consistently with the one
store implementation in the repository (`Database::update_vault_balance`,
whose `UPDATE ... WHERE owner` matches zero rows without error), an
absent owner makes the update a successful no-op. -/
def update_vault_balances (db : VaultDb) (owner : String)
    (f : VaultRow → Except String VaultRow) : Except String VaultDb :=
  match getVault db owner with
  | some v =>
    match f v with
    | .ok v2 => .ok (updateOwner db owner (fun _ => v2))
    | .error e => .error e
  | none => .ok db

/-- A vault audit event (`models/database.rs` `VaultEvent`; the JSON
payload is reduced to the amount that every operation stores in it). -/
structure VaultEvent where
  vault_owner : String
  event_type : String
  amount : Int
deriving DecidableEq, Repr

/-- A row of the `transactions` table (`Database::record_transaction`). -/
structure TxRecord where
  vault_owner : String
  tx_type : String
  amount : Int
deriving DecidableEq, Repr

/-- A row of the `reconciliation_logs` table
(`BalanceTracker::log_discrepancy`). -/
structure ReconLog where
  vault_owner : String
  onchain_balance : Int
  offchain_balance : Int
  discrepancy : Int
deriving DecidableEq, Repr

/-- The observable system state: the mirror store's tables plus counters
for the ledger interactions (`built_txs` counts transaction-builder
invocations, `submit_attempts` counts `send_transaction` calls,
`submitted` counts the successful ones). -/
structure SysState where
  db : VaultDb
  events : List VaultEvent
  tx_records : List TxRecord
  recon_logs : List ReconLog
  built_txs : Nat
  submit_attempts : Nat
  submitted : Nat
deriving DecidableEq, Repr

/-! ## Transaction Builder (`src/services/transaction_service.rs`) -/

/-- A ledger instruction; the SDK encoding is reduced to the owning
program and a data vector. -/
structure Instruction where
  program_id : String
  data : List Nat
deriving DecidableEq, Repr

/-- The compute-budget program address. -/
def compute_budget_program_id : String := "ComputeBudget111111111111111111111111111111"

/-- `ComputeBudgetInstruction::set_compute_unit_price(micro_lamports)`:
the SetComputeUnitPrice instruction (discriminator 3) carrying the
price. -/
def set_compute_unit_price (micro_lamports : Nat) : Instruction :=
  { program_id := compute_budget_program_id, data := [3, micro_lamports] }

/-- Builder state of `TransactionBuilder` in `transaction_service.rs`.
Keypairs are embedded by their public keys. -/
structure TransactionBuilder where
  payer : String
  recent_blockhash : Nat
  instructions : List Instruction
  signers : List String
  priority_fee : Option Nat
deriving DecidableEq, Repr

/-- A signed transaction envelope: `Transaction::new_with_payer` followed
by `sign(&self.signers, recent_blockhash)`. -/
structure SignedTransaction where
  instructions : List Instruction
  fee_payer : String
  signatures : List String
  recent_blockhash : Nat
deriving DecidableEq, Repr

namespace TransactionBuilder

/-- `TransactionBuilder::new`: empty instruction list, the payer is the
initial (and always first) signer, no priority fee. -/
def new (payer : String) (recent_blockhash : Nat) : TransactionBuilder :=
  { payer := payer, recent_blockhash := recent_blockhash, instructions := [],
    signers := [payer], priority_fee := none }

/-- `TransactionBuilder::add_instruction`: pushes one instruction. -/
def add_instruction (b : TransactionBuilder) (ix : Instruction) : TransactionBuilder :=
  { b with instructions := b.instructions ++ [ix] }

/-- `TransactionBuilder::add_signer`: appends one signer. -/
def add_signer (b : TransactionBuilder) (s : String) : TransactionBuilder :=
  { b with signers := b.signers ++ [s] }

/-- `TransactionBuilder::set_priority_fee`. -/
def set_priority_fee (b : TransactionBuilder) (micro_lamports : Nat) : TransactionBuilder :=
  { b with priority_fee := some micro_lamports }

/-- `TransactionBuilder::build`: when a priority fee is set, the
compute-budget instruction is inserted at position 0; then the
transaction is created with the payer and signed by the collected
signers.  The source performs no validation of any kind and always
returns `Ok`. -/
def build (b : TransactionBuilder) : Except String SignedTransaction :=
  let instructions :=
    match b.priority_fee with
    | some micro_lamports => set_compute_unit_price micro_lamports :: b.instructions
    | none => b.instructions
  .ok { instructions := instructions, fee_payer := b.payer,
        signatures := b.signers, recent_blockhash := b.recent_blockhash }

/-- Adds a list of instructions in order (iterated `add_instruction`). -/
def add_instructions (b : TransactionBuilder) (ixs : List Instruction) : TransactionBuilder :=
  ixs.foldl add_instruction b

/-- Adds a list of signers in call order (iterated `add_signer`). -/
def add_signers (b : TransactionBuilder) (ss : List String) : TransactionBuilder :=
  ss.foldl add_signer b

end TransactionBuilder

/-! ## Vault Ledger Consistency Engine (`src/services/vault_service.rs`)

Each operation follows the source's control flow: build the transaction
(`built_txs + 1`), call `send_transaction` (`submit_attempts + 1`, and
the `?` aborts the operation when it fails), then — only on success —
apply the mirror update and append the audit event.  `submit_ok` is the
outcome of the `send_transaction` RPC. -/

namespace VaultService

/-- `AnchorClient::get_vault_pda`: the vault address derived
deterministically from the owner and the fixed seed `b"vault"`
(`find_program_address` abstracted to a tagged string). -/
def get_vault_pda (owner : String) : String := "vault:" ++ owner

/-- `VaultService::log_vault_event`: appends one audit row. -/
def log_vault_event (st : SysState) (owner event_type : String) (amount : Int) : SysState :=
  { st with events := st.events ++ [⟨owner, event_type, amount⟩] }

/-- Marks one transaction built and one submission attempt. -/
def buildAndAttempt (st : SysState) : SysState :=
  { st with built_txs := st.built_txs + 1, submit_attempts := st.submit_attempts + 1 }

/-- `VaultService::initialize_vault`: build, submit, confirm, then insert
a mirror row with all balances zero. -/
def initialize_vault (submit_ok : Bool) (st : SysState) (owner token_mint : String) :
    Except String Unit × SysState :=
  let st := buildAndAttempt st
  if submit_ok then
    let st := { st with submitted := st.submitted + 1 }
    let row : VaultRow :=
      { owner := owner, vault_address := get_vault_pda owner,
        total_balance := 0, locked_balance := 0, available_balance := 0,
        total_deposited := 0, total_withdrawn := 0 }
    (.ok (), { st with db := st.db ++ [row] })
  else (.error "Failed to send transaction", st)

/-- `VaultService::deposit_collateral`: build, submit, log a "deposit"
event.  This path applies no mirror balance delta at all. -/
def deposit_collateral (submit_ok : Bool) (st : SysState) (owner : String) (amount : Int) :
    Except String Unit × SysState :=
  let st := buildAndAttempt st
  if submit_ok then
    let st := { st with submitted := st.submitted + 1 }
    (.ok (), log_vault_event st owner "deposit" amount)
  else (.error "Failed to send transaction", st)

/-- `VaultService::withdraw_collateral`: build, submit, log a "withdraw"
event; like the deposit path it applies no mirror balance delta. -/
def withdraw_collateral (submit_ok : Bool) (st : SysState) (owner : String) (amount : Int) :
    Except String Unit × SysState :=
  let st := buildAndAttempt st
  if submit_ok then
    let st := { st with submitted := st.submitted + 1 }
    (.ok (), log_vault_event st owner "withdraw" amount)
  else (.error "Failed to send transaction", st)

/-- `VaultService::lock_collateral`: build and submit FIRST, then run
the mirror update whose closure checks `available_balance >= amount`
(moving the amount from available to locked), then log a "lock" event. -/
def lock_collateral (submit_ok : Bool) (st : SysState) (owner : String) (amount : Int)
    (caller_program : String) : Except String Unit × SysState :=
  let st := buildAndAttempt st
  if submit_ok then
    let st := { st with submitted := st.submitted + 1 }
    match update_vault_balances st.db owner (fun v =>
      if amount ≤ v.available_balance then
        .ok { v with available_balance := v.available_balance - amount,
                     locked_balance := v.locked_balance + amount }
      else .error "Insufficient available balance") with
    | .ok db2 => (.ok (), log_vault_event { st with db := db2 } owner "lock" amount)
    | .error e => (.error e, st)
  else (.error "Failed to send transaction", st)

/-- `VaultService::unlock_collateral`: build and submit first, then the
closure checks `locked_balance >= amount` and moves the amount from
locked to available, then log an "unlock" event. -/
def unlock_collateral (submit_ok : Bool) (st : SysState) (owner : String) (amount : Int)
    (caller_program : String) : Except String Unit × SysState :=
  let st := buildAndAttempt st
  if submit_ok then
    let st := { st with submitted := st.submitted + 1 }
    match update_vault_balances st.db owner (fun v =>
      if amount ≤ v.locked_balance then
        .ok { v with locked_balance := v.locked_balance - amount,
                     available_balance := v.available_balance + amount }
      else .error "Insufficient locked balance") with
    | .ok db2 => (.ok (), log_vault_event { st with db := db2 } owner "unlock" amount)
    | .error e => (.error e, st)
  else (.error "Failed to send transaction", st)

/-- `VaultService::transfer_collateral`: build and submit first; then
TWO independent mirror updates — the sender debit (checked against the
sender's available balance) and, awaited separately, the unconditional
recipient credit — followed by the "transfer_out"/"transfer_in" events.
`credit_store_ok` is the outcome of the second store call: when it fails
the operation aborts with the debit already persisted. -/
def transfer_collateral (submit_ok credit_store_ok : Bool) (st : SysState)
    (from_owner to_owner : String) (amount : Int) (caller_program : String) :
    Except String Unit × SysState :=
  let st := buildAndAttempt st
  if submit_ok then
    let st := { st with submitted := st.submitted + 1 }
    match update_vault_balances st.db from_owner (fun v =>
      if amount ≤ v.available_balance then
        .ok { v with available_balance := v.available_balance - amount,
                     total_balance := v.total_balance - amount }
      else .error "Insufficient available balance") with
    | .error e => (.error e, st)
    | .ok db1 =>
      let st := { st with db := db1 }
      if credit_store_ok then
        match update_vault_balances st.db to_owner (fun v =>
          .ok { v with available_balance := v.available_balance + amount,
                       total_balance := v.total_balance + amount }) with
        | .error e => (.error e, st)
        | .ok db2 =>
          let st := { st with db := db2 }
          let st := log_vault_event st from_owner "transfer_out" amount
          let st := log_vault_event st to_owner "transfer_in" amount
          (.ok (), st)
      else (.error "Mirror store failure", st)
  else (.error "Failed to send transaction", st)

end VaultService

/-! ## VaultManager (`src/vault_manager.rs`) -/

namespace VaultManager

/-- `VaultManager::verify_signature`: stubbed in the source to always
pass. -/
def verify_signature (_pubkey _signature : String) : Bool := true

/-- `VaultManager::deposit_collateral`: verify the (stubbed) signature,
fetch the on-chain vault state (`fetch_ok`; the value is unused), submit
the deposit, record a "deposit" transaction row and apply
`update_vault_balance(owner, amount, 0, amount)` — note that
`total_deposited` is not among the columns that update touches. -/
def deposit_collateral (fetch_ok submit_ok : Bool) (st : SysState) (owner : String)
    (amount : Int) (user_signature : String) : Except String Unit × SysState :=
  if verify_signature owner user_signature then
    if fetch_ok then
      let st := buildAndAttempt st
      if submit_ok then
        let st := { st with submitted := st.submitted + 1 }
        let st := { st with tx_records := st.tx_records ++ [({ vault_owner := owner, tx_type := "deposit", amount := amount } : TxRecord)] }
        (.ok (), { st with db := Database.update_vault_balance st.db owner amount 0 amount })
      else (.error "LedgerSubmissionError", st)
    else (.error "Failed to fetch vault state", st)
  else (.error "InvalidSignature", st)
where
  buildAndAttempt (st : SysState) : SysState :=
    { st with built_txs := st.built_txs + 1, submit_attempts := st.submit_attempts + 1 }

/-- `VaultManager::withdraw_collateral`: verify the (stubbed) signature,
fetch the on-chain state (`onchain_available`; `none` is a fetch error),
return `InsufficientBalance` BEFORE submitting when
`available_balance < amount`, otherwise submit, record a "withdrawal"
row with the negated amount and apply
`update_vault_balance(owner, -amount, 0, -amount)`. -/
def withdraw_collateral (submit_ok : Bool) (st : SysState) (owner : String)
    (amount : Int) (user_signature : String) (onchain_available : Option Int) :
    Except String Unit × SysState :=
  if verify_signature owner user_signature then
    match onchain_available with
    | none => (.error "Failed to fetch vault state", st)
    | some available =>
      if available < amount then (.error "InsufficientBalance", st)
      else
        let st := { st with built_txs := st.built_txs + 1,
                            submit_attempts := st.submit_attempts + 1 }
        if submit_ok then
          let st := { st with submitted := st.submitted + 1 }
          let st := { st with tx_records := st.tx_records ++ [({ vault_owner := owner, tx_type := "withdrawal", amount := -amount } : TxRecord)] }
          (.ok (), { st with db := Database.update_vault_balance st.db owner (-amount) 0 (-amount) })
        else (.error "LedgerSubmissionError", st)
  else (.error "InvalidSignature", st)

end VaultManager

/-! ## Reconciliation loop (`src/balance_tacker.rs`) -/

namespace BalanceTracker

/-- The hard-coded auto-correction threshold of `reconcile_vault`
(`1000`, i.e. 0.001 USDT in the token's smallest unit). -/
def correction_threshold : Nat := 1000

/-- `BalanceTracker::reconcile_vault`: compute `discrepancy =
onchain_total - vault.total_balance`; when nonzero, append a
reconciliation log row unconditionally and, when
`discrepancy.abs() < 1000`, apply
`update_vault_balance(owner, discrepancy, 0, discrepancy)`.  Returns the
discrepancy alongside the new state. -/
def reconcile_vault (st : SysState) (vault : VaultRow) (onchain_total : Int) :
    SysState × Int :=
  let discrepancy := onchain_total - vault.total_balance
  if discrepancy = 0 then (st, discrepancy)
  else
    let st := { st with recon_logs :=
      st.recon_logs ++ [⟨vault.owner, onchain_total, vault.total_balance, discrepancy⟩] }
    if discrepancy.natAbs < correction_threshold then
      ({ st with db := Database.update_vault_balance st.db vault.owner discrepancy 0 discrepancy },
       discrepancy)
    else (st, discrepancy)

end BalanceTracker

/-! ## Operation sequences -/

/-- One balance-changing operation of the engine (the variants carry the
fault-free parameters the source reads from the request or the chain:
`withdraw` carries the on-chain available balance the manager fetches,
`reconcile` the on-chain total the loop fetches). -/
inductive Op where
  | init (owner token_mint : String)
  | deposit (owner : String) (amount : Int)
  | withdraw (owner : String) (amount : Int) (onchain_available : Int)
  | lock (owner : String) (amount : Int) (caller : String)
  | unlock (owner : String) (amount : Int) (caller : String)
  | transfer (from_owner to_owner : String) (amount : Int) (caller : String)
  | reconcile (owner : String) (onchain_total : Int)
deriving Repr

/-- Executes one operation on the success path of every external call
(submission succeeds, stores succeed), keeping the resulting state. -/
def execOp (op : Op) (st : SysState) : SysState :=
  match op with
  | .init o m => (VaultService.initialize_vault true st o m).2
  | .deposit o a => (VaultManager.deposit_collateral true true st o a "sig").2
  | .withdraw o a av => (VaultManager.withdraw_collateral true st o a "sig" (some av)).2
  | .lock o a c => (VaultService.lock_collateral true st o a c).2
  | .unlock o a c => (VaultService.unlock_collateral true st o a c).2
  | .transfer f t a c => (VaultService.transfer_collateral true true st f t a c).2
  | .reconcile o tot =>
    match getVault st.db o with
    | some v => (BalanceTracker.reconcile_vault st v tot).1
    | none => st

/-- Executes a sequence of operations in order. -/
def execList (ops : List Op) (st : SysState) : SysState :=
  ops.foldl (fun s op => execOp op s) st

/-! ## Invariants -/

/-- Invariant I1 of the spec:
`total_balance == locked_balance + available_balance`. -/
def I1 (v : VaultRow) : Prop :=
  v.total_balance = v.locked_balance + v.available_balance

instance (v : VaultRow) : Decidable (I1 v) := by unfold I1; infer_instance

/-- I1 for every row of the mirror. -/
def AllI1 (db : VaultDb) : Prop := ∀ v ∈ db, I1 v

instance (db : VaultDb) : Decidable (AllI1 db) := List.decidableBAll _ _

/-- Deposit/withdraw cumulative counters of `u` carried over
unchanged to `w` (same owner, same `total_deposited`, same
`total_withdrawn`). -/
def DepWdPreserved (u w : VaultRow) : Prop :=
  u.owner = w.owner ∧ w.total_deposited = u.total_deposited ∧
  w.total_withdrawn = u.total_withdrawn

/-- Every row of `db2` either inherits its cumulative
`total_deposited`/`total_withdrawn` from a row of `db` with the same
owner, or is a freshly initialized row where both are zero. -/
def DepWdTraced (db db2 : VaultDb) : Prop :=
  ∀ w ∈ db2, (∃ u ∈ db, DepWdPreserved u w) ∨
    (w.total_deposited = 0 ∧ w.total_withdrawn = 0)

/-! ## Claim C2: submission failure leaves the mirror untouched -/

/-- The operation outcome `r` failed and left every mirror table of the
starting state `st` unchanged (vault rows, audit events, transaction
records, reconciliation logs). -/
def FailedWithMirrorUnchanged (r : Except String Unit × SysState) (st : SysState) : Prop :=
  r.1.isOk = false ∧ r.2.db = st.db ∧ r.2.events = st.events ∧
  r.2.tx_records = st.tx_records ∧ r.2.recon_logs = st.recon_logs

/-! ## Store lemmas -/

lemma getVault_owner {db : VaultDb} {o : String} {v : VaultRow}
    (h : getVault db o = some v) : v.owner = o := by
  induction db with
  | nil => simp [getVault] at h
  | cons u rest ih =>
    by_cases hu : u.owner = o
    · simp [getVault, hu] at h
      rw [← h]; exact hu
    · simp [getVault, hu] at h
      exact ih h

lemma getVault_mem {db : VaultDb} {o : String} {v : VaultRow}
    (h : getVault db o = some v) : v ∈ db := by
  induction db with
  | nil => simp [getVault] at h
  | cons u rest ih =>
    by_cases hu : u.owner = o
    · simp [getVault, hu] at h
      simp [h]
    · simp [getVault, hu] at h
      simp [ih h]

lemma getVault_updateOwner_self {db : VaultDb} {o : String} {g : VaultRow → VaultRow}
    (hg : ∀ u : VaultRow, u.owner = o → (g u).owner = o) :
    getVault (updateOwner db o g) o = (getVault db o).map g := by
  induction db with
  | nil => simp [getVault, updateOwner]
  | cons u rest ih =>
    by_cases hu : u.owner = o
    · simp [getVault, updateOwner, hu, hg u hu]
    · simp [getVault, updateOwner, hu, ih]

lemma getVault_updateOwner_ne {db : VaultDb} {o o2 : String} {g : VaultRow → VaultRow}
    (hne : o2 ≠ o) (hg : ∀ u : VaultRow, u.owner = o → (g u).owner = o) :
    getVault (updateOwner db o g) o2 = getVault db o2 := by
  induction db with
  | nil => simp [updateOwner]
  | cons u rest ih =>
    by_cases hu : u.owner = o
    · have h2 : ¬((g u).owner = o2) := by
        rw [hg u hu]; exact fun e => hne e.symm
      have h3 : ¬(u.owner = o2) := by
        rw [hu]; exact fun e => hne e.symm
      simp only [updateOwner]
      rw [if_pos hu]
      simp [getVault, h2, h3, ih]
    · simp [getVault, updateOwner, hu, ih]

lemma mem_updateOwner {w : VaultRow} {db : VaultDb} {o : String} {g : VaultRow → VaultRow}
    (h : w ∈ updateOwner db o g) :
    (∃ u, u ∈ db ∧ u.owner = o ∧ w = g u) ∨ w ∈ db := by
  induction db with
  | nil => simp [updateOwner] at h
  | cons u rest ih =>
    simp only [updateOwner, List.mem_cons] at h
    rcases h with h | h
    · by_cases hu : u.owner = o
      · rw [if_pos hu] at h
        exact .inl ⟨u, by simp, hu, h⟩
      · rw [if_neg hu] at h
        exact .inr (by simp [h])
    · rcases ih h with ⟨u2, hmem, ho, he⟩ | hm
      · exact .inl ⟨u2, by simp [hmem], ho, he⟩
      · exact .inr (by simp [hm])

lemma update_vault_balances_none {db : VaultDb} {o : String}
    {f : VaultRow → Except String VaultRow} (h : getVault db o = none) :
    update_vault_balances db o f = .ok db := by
  simp [update_vault_balances, h]

lemma update_vault_balances_ok {db : VaultDb} {o : String}
    {f : VaultRow → Except String VaultRow} {v v2 : VaultRow}
    (h : getVault db o = some v) (hf : f v = .ok v2) :
    update_vault_balances db o f = .ok (updateOwner db o (fun _ => v2)) := by
  simp [update_vault_balances, h, hf]

lemma update_vault_balances_err {db : VaultDb} {o : String}
    {f : VaultRow → Except String VaultRow} {v : VaultRow} {e : String}
    (h : getVault db o = some v) (hf : f v = .error e) :
    update_vault_balances db o f = .error e := by
  simp [update_vault_balances, h, hf]

/-! ## Further store-lookup lemmas -/

lemma getVault_applyDelta {db : VaultDb} {o : String} {td ld ad : Int} :
    getVault (updateOwner db o (applyDelta td ld ad)) o =
      (getVault db o).map (applyDelta td ld ad) :=
  getVault_updateOwner_self (fun u hu => hu)

lemma getVault_applyDelta_ne {db : VaultDb} {o o2 : String} {td ld ad : Int}
    (hne : o2 ≠ o) :
    getVault (updateOwner db o (applyDelta td ld ad)) o2 = getVault db o2 :=
  getVault_updateOwner_ne hne (fun u hu => hu)

lemma getVault_set_self {db : VaultDb} {o : String} {v v2 : VaultRow}
    (hv : getVault db o = some v) (hown : v2.owner = o) :
    getVault (updateOwner db o (fun _ => v2)) o = some v2 := by
  rw [getVault_updateOwner_self (fun u _ => hown), hv]
  rfl

lemma getVault_set_other {db : VaultDb} {o o2 : String} {v2 : VaultRow}
    {r : Option VaultRow} (hne : o2 ≠ o) (hown : v2.owner = o)
    (hrest : getVault db o2 = r) :
    getVault (updateOwner db o (fun _ => v2)) o2 = r := by
  rw [getVault_updateOwner_ne hne (fun u _ => hown)]
  exact hrest

/-! ## Invariant-preservation lemmas -/

lemma AllI1_updateOwner {db : VaultDb} {o : String} {g : VaultRow → VaultRow}
    (h : AllI1 db) (hg : ∀ u, u ∈ db → I1 u → I1 (g u)) :
    AllI1 (updateOwner db o g) := by
  intro w hw
  rcases mem_updateOwner hw with ⟨u, hu, _, he⟩ | hm
  · rw [he]; exact hg u hu (h u hu)
  · exact h w hm

lemma AllI1_append {db1 db2 : VaultDb} (h1 : AllI1 db1) (h2 : AllI1 db2) :
    AllI1 (db1 ++ db2) := by
  intro w hw
  rcases List.mem_append.mp hw with h | h
  · exact h1 w h
  · exact h2 w h

lemma I1_applyDelta {td ld ad : Int} (hsum : td = ld + ad) {v : VaultRow}
    (h : I1 v) : I1 (applyDelta td ld ad v) := by
  unfold I1 applyDelta at *
  simp only []
  omega

lemma AllI1_update_vault_balance {db : VaultDb} {o : String} {td ld ad : Int}
    (h : AllI1 db) (hsum : td = ld + ad) :
    AllI1 (Database.update_vault_balance db o td ld ad) :=
  AllI1_updateOwner h (fun _ _ hI => I1_applyDelta hsum hI)

lemma AllI1_update_vault_balances {db db2 : VaultDb} {o : String}
    {f : VaultRow → Except String VaultRow} (h : AllI1 db)
    (hok : update_vault_balances db o f = .ok db2)
    (hf : ∀ v v2, I1 v → f v = .ok v2 → I1 v2) : AllI1 db2 := by
  cases hv : getVault db o with
  | none =>
    rw [update_vault_balances_none hv] at hok
    obtain rfl : db = db2 := by injection hok
    exact h
  | some v =>
    cases hfv : f v with
    | error e => rw [update_vault_balances_err hv hfv] at hok; cases hok
    | ok v2 =>
      rw [update_vault_balances_ok hv hfv] at hok
      obtain rfl : updateOwner db o (fun _ => v2) = db2 := by injection hok
      exact AllI1_updateOwner h
        (fun _ _ _ => hf v v2 (h v (getVault_mem hv)) hfv)

lemma AllI1_initialize_vault (so : Bool) (st : SysState) (o m : String)
    (h : AllI1 st.db) : AllI1 (VaultService.initialize_vault so st o m).2.db := by
  unfold VaultService.initialize_vault VaultService.buildAndAttempt
  cases so with
  | false => simpa using h
  | true =>
    simp only [if_true]
    refine AllI1_append h ?_
    intro w hw
    simp only [List.mem_singleton] at hw
    subst hw
    simp [I1]

lemma AllI1_deposit_vm (fo so : Bool) (st : SysState) (o sig : String) (a : Int)
    (h : AllI1 st.db) :
    AllI1 (VaultManager.deposit_collateral fo so st o a sig).2.db := by
  unfold VaultManager.deposit_collateral VaultManager.verify_signature
  cases fo with
  | false => simpa using h
  | true =>
    cases so with
    | false => simpa [VaultManager.deposit_collateral.buildAndAttempt] using h
    | true =>
      simp only [if_true]
      exact AllI1_update_vault_balance h (by omega)

lemma AllI1_withdraw_vm (so : Bool) (st : SysState) (o sig : String) (a : Int)
    (av : Option Int) (h : AllI1 st.db) :
    AllI1 (VaultManager.withdraw_collateral so st o a sig av).2.db := by
  unfold VaultManager.withdraw_collateral VaultManager.verify_signature
  cases av with
  | none => simpa using h
  | some available =>
    by_cases hav : available < a
    · simpa [hav] using h
    · cases so with
      | false => simpa [hav] using h
      | true =>
        simp only [if_true, hav, if_false, if_neg hav]
        exact AllI1_update_vault_balance h (by omega)

lemma AllI1_lock (so : Bool) (st : SysState) (o c : String) (a : Int)
    (h : AllI1 st.db) : AllI1 (VaultService.lock_collateral so st o a c).2.db := by
  unfold VaultService.lock_collateral VaultService.buildAndAttempt VaultService.log_vault_event
  cases so with
  | false => simpa using h
  | true =>
    simp only [if_true]
    split
    · next db2 heq =>
      refine AllI1_update_vault_balances h heq ?_
      intro v v2 hI hfv
      by_cases hc : a ≤ v.available_balance
      · rw [if_pos hc] at hfv
        obtain rfl : _ = v2 := by injection hfv
        unfold I1 at *
        simp only []
        omega
      · rw [if_neg hc] at hfv; cases hfv
    · next e heq => exact h

lemma AllI1_unlock (so : Bool) (st : SysState) (o c : String) (a : Int)
    (h : AllI1 st.db) : AllI1 (VaultService.unlock_collateral so st o a c).2.db := by
  unfold VaultService.unlock_collateral VaultService.buildAndAttempt VaultService.log_vault_event
  cases so with
  | false => simpa using h
  | true =>
    simp only [if_true]
    split
    · next db2 heq =>
      refine AllI1_update_vault_balances h heq ?_
      intro v v2 hI hfv
      by_cases hc : a ≤ v.locked_balance
      · rw [if_pos hc] at hfv
        obtain rfl : _ = v2 := by injection hfv
        unfold I1 at *
        simp only []
        omega
      · rw [if_neg hc] at hfv; cases hfv
    · next e heq => exact h

lemma AllI1_transfer (so cso : Bool) (st : SysState) (fo to_ c : String) (a : Int)
    (h : AllI1 st.db) :
    AllI1 (VaultService.transfer_collateral so cso st fo to_ a c).2.db := by
  unfold VaultService.transfer_collateral VaultService.buildAndAttempt VaultService.log_vault_event
  cases so with
  | false => simpa using h
  | true =>
    simp only [if_true]
    split
    · next e heq => exact h
    · next db1 heq =>
      have h1 : AllI1 db1 := by
        refine AllI1_update_vault_balances h heq ?_
        intro v v2 hI hfv
        by_cases hc : a ≤ v.available_balance
        · rw [if_pos hc] at hfv
          obtain rfl : _ = v2 := by injection hfv
          unfold I1 at *
          simp only []
          omega
        · rw [if_neg hc] at hfv; cases hfv
      cases cso with
      | false => simpa using h1
      | true =>
        simp only [if_true]
        split
        · next e heq2 => exact h1
        · next db2 heq2 =>
          refine AllI1_update_vault_balances h1 heq2 ?_
          intro v v2 hI hfv
          obtain rfl : _ = v2 := by injection hfv
          unfold I1 at *
          simp only []
          omega

lemma AllI1_reconcile (st : SysState) (v : VaultRow) (tot : Int)
    (h : AllI1 st.db) : AllI1 (BalanceTracker.reconcile_vault st v tot).1.db := by
  unfold BalanceTracker.reconcile_vault
  by_cases hz : tot - v.total_balance = 0
  · simpa [hz] using h
  · by_cases hsmall : (tot - v.total_balance).natAbs < BalanceTracker.correction_threshold
    · simp only [hz, if_neg hz, hsmall, if_pos hsmall]
      exact AllI1_update_vault_balance h (by omega)
    · simpa [hz, hsmall] using h

lemma AllI1_execOp (op : Op) (st : SysState) (h : AllI1 st.db) :
    AllI1 (execOp op st).db := by
  cases op with
  | init o m => exact AllI1_initialize_vault true st o m h
  | deposit o a => exact AllI1_deposit_vm true true st o "sig" a h
  | withdraw o a av => exact AllI1_withdraw_vm true st o "sig" a (some av) h
  | lock o a c => exact AllI1_lock true st o c a h
  | unlock o a c => exact AllI1_unlock true st o c a h
  | transfer f t a c => exact AllI1_transfer true true st f t c a h
  | reconcile o tot =>
    unfold execOp
    cases hv : getVault st.db o with
    | none => simpa [hv] using h
    | some v =>
      simp only [hv]
      exact AllI1_reconcile st v tot h

lemma DepWdTraced_refl (db : VaultDb) : DepWdTraced db db :=
  fun w hw => .inl ⟨w, hw, rfl, rfl, rfl⟩

lemma DepWdTraced_trans {db1 db2 db3 : VaultDb}
    (h12 : DepWdTraced db1 db2) (h23 : DepWdTraced db2 db3) :
    DepWdTraced db1 db3 := by
  intro w hw
  rcases h23 w hw with ⟨u2, hu2, ho2, hd2, hw2⟩ | hz
  · rcases h12 u2 hu2 with ⟨u1, hu1, ho1, hd1, hw1⟩ | hz2
    · exact .inl ⟨u1, hu1, ho1.trans ho2, hd2.trans hd1, hw2.trans hw1⟩
    · exact .inr ⟨hd2.trans hz2.1, hw2.trans hz2.2⟩
  · exact .inr hz

lemma DepWdTraced_updateOwner {db : VaultDb} {o : String} {g : VaultRow → VaultRow}
    (hg : ∀ u, u ∈ db → DepWdPreserved u (g u)) :
    DepWdTraced db (updateOwner db o g) := by
  intro w hw
  rcases mem_updateOwner hw with ⟨u, hu, _, he⟩ | hm
  · exact .inl ⟨u, hu, he ▸ hg u hu⟩
  · exact .inl ⟨w, hm, rfl, rfl, rfl⟩

lemma DepWdTraced_update_vault_balance (db : VaultDb) (o : String) (td ld ad : Int) :
    DepWdTraced db (Database.update_vault_balance db o td ld ad) :=
  DepWdTraced_updateOwner (fun _ _ => ⟨rfl, rfl, rfl⟩)

lemma DepWdTraced_update_vault_balances {db db2 : VaultDb} {o : String}
    {f : VaultRow → Except String VaultRow}
    (hok : update_vault_balances db o f = .ok db2)
    (hf : ∀ v v2, f v = .ok v2 → DepWdPreserved v v2) :
    DepWdTraced db db2 := by
  cases hv : getVault db o with
  | none =>
    rw [update_vault_balances_none hv] at hok
    obtain rfl : db = db2 := by injection hok
    exact DepWdTraced_refl db
  | some v =>
    cases hfv : f v with
    | error e => rw [update_vault_balances_err hv hfv] at hok; cases hok
    | ok v2 =>
      rw [update_vault_balances_ok hv hfv] at hok
      obtain rfl : updateOwner db o (fun _ => v2) = db2 := by injection hok
      intro w hw
      rcases mem_updateOwner hw with ⟨u, _, _, he⟩ | hm
      · exact .inl ⟨v, getVault_mem hv, he ▸ hf v v2 hfv⟩
      · exact .inl ⟨w, hm, rfl, rfl, rfl⟩

lemma DepWdTraced_execOp (op : Op) (st : SysState) :
    DepWdTraced st.db (execOp op st).db := by
  cases op with
  | init o m =>
    unfold execOp VaultService.initialize_vault VaultService.buildAndAttempt
    simp only [if_true]
    intro w hw
    rcases List.mem_append.mp hw with h | h
    · exact .inl ⟨w, h, rfl, rfl, rfl⟩
    · simp only [List.mem_singleton] at h
      subst h
      exact .inr ⟨rfl, rfl⟩
  | deposit o a =>
    unfold execOp VaultManager.deposit_collateral VaultManager.verify_signature
      VaultManager.deposit_collateral.buildAndAttempt
    simp only [if_true]
    exact DepWdTraced_update_vault_balance _ _ _ _ _
  | withdraw o a av =>
    unfold execOp VaultManager.withdraw_collateral VaultManager.verify_signature
    by_cases hav : av < a
    · simp [hav, DepWdTraced_refl]
    · simp only [if_true, if_neg hav]
      exact DepWdTraced_update_vault_balance _ _ _ _ _
  | lock o a c =>
    unfold execOp VaultService.lock_collateral VaultService.buildAndAttempt
      VaultService.log_vault_event
    simp only [if_true]
    split
    · next db2 heq =>
      refine DepWdTraced_update_vault_balances heq ?_
      intro v v2 hfv
      by_cases hc : a ≤ v.available_balance
      · rw [if_pos hc] at hfv
        obtain rfl : _ = v2 := by injection hfv
        exact ⟨rfl, rfl, rfl⟩
      · rw [if_neg hc] at hfv; cases hfv
    · next e heq => exact DepWdTraced_refl _
  | unlock o a c =>
    unfold execOp VaultService.unlock_collateral VaultService.buildAndAttempt
      VaultService.log_vault_event
    simp only [if_true]
    split
    · next db2 heq =>
      refine DepWdTraced_update_vault_balances heq ?_
      intro v v2 hfv
      by_cases hc : a ≤ v.locked_balance
      · rw [if_pos hc] at hfv
        obtain rfl : _ = v2 := by injection hfv
        exact ⟨rfl, rfl, rfl⟩
      · rw [if_neg hc] at hfv; cases hfv
    · next e heq => exact DepWdTraced_refl _
  | transfer fo to_ a c =>
    unfold execOp VaultService.transfer_collateral VaultService.buildAndAttempt
      VaultService.log_vault_event
    simp only [if_true]
    split
    · next e heq => exact DepWdTraced_refl _
    · next db1 heq =>
      have h1 : DepWdTraced st.db db1 := by
        refine DepWdTraced_update_vault_balances heq ?_
        intro v v2 hfv
        by_cases hc : a ≤ v.available_balance
        · rw [if_pos hc] at hfv
          obtain rfl : _ = v2 := by injection hfv
          exact ⟨rfl, rfl, rfl⟩
        · rw [if_neg hc] at hfv; cases hfv
      split
      · next e heq2 => exact h1
      · next db2 heq2 =>
        refine DepWdTraced_trans h1 (DepWdTraced_update_vault_balances heq2 ?_)
        intro v v2 hfv
        obtain rfl : _ = v2 := by injection hfv
        exact ⟨rfl, rfl, rfl⟩
  | reconcile o tot =>
    unfold execOp
    cases hv : getVault st.db o with
    | none =>
      simp only [hv]
      exact DepWdTraced_refl _
    | some v =>
      simp only [hv]
      unfold BalanceTracker.reconcile_vault
      by_cases hz : tot - v.total_balance = 0
      · simp only [if_pos hz]
        exact DepWdTraced_refl _
      · by_cases hsmall : (tot - v.total_balance).natAbs < BalanceTracker.correction_threshold
        · simp only [if_neg hz, if_pos hsmall]
          exact DepWdTraced_update_vault_balance _ _ _ _ _
        · simp only [if_neg hz, if_neg hsmall]
          exact DepWdTraced_refl _

/-! ## Transaction Builder lemmas -/

lemma add_instructions_eq (b : TransactionBuilder) (ixs : List Instruction) :
    b.add_instructions ixs = { b with instructions := b.instructions ++ ixs } := by
  induction ixs generalizing b with
  | nil => simp [TransactionBuilder.add_instructions]
  | cons ix rest ih =>
    simp only [TransactionBuilder.add_instructions, List.foldl_cons] at *
    rw [ih]
    simp [TransactionBuilder.add_instruction]

lemma add_signers_eq (b : TransactionBuilder) (ss : List String) :
    b.add_signers ss = { b with signers := b.signers ++ ss } := by
  induction ss generalizing b with
  | nil => simp [TransactionBuilder.add_signers]
  | cons s rest ih =>
    simp only [TransactionBuilder.add_signers, List.foldl_cons] at *
    rw [ih]
    simp [TransactionBuilder.add_signer]

namespace C1Helpers

/-- For a failing lock precondition the operation equals an error paired
with the start state plus one built transaction and one (successful)
submission. -/
lemma lock_insufficient (st : SysState) (o c : String) (a : Int) (v : VaultRow)
    (hv : getVault st.db o = some v) (ha : v.available_balance < a) :
    VaultService.lock_collateral true st o a c =
      (Except.error "Insufficient available balance",
       { st with built_txs := st.built_txs + 1,
                 submit_attempts := st.submit_attempts + 1,
                 submitted := st.submitted + 1 }) := by
  unfold VaultService.lock_collateral VaultService.buildAndAttempt
  simp only [if_true]
  rw [update_vault_balances_err hv (if_neg (not_le.mpr ha))]

lemma unlock_insufficient (st : SysState) (o c : String) (a : Int) (v : VaultRow)
    (hv : getVault st.db o = some v) (hl : v.locked_balance < a) :
    VaultService.unlock_collateral true st o a c =
      (Except.error "Insufficient locked balance",
       { st with built_txs := st.built_txs + 1,
                 submit_attempts := st.submit_attempts + 1,
                 submitted := st.submitted + 1 }) := by
  unfold VaultService.unlock_collateral VaultService.buildAndAttempt
  simp only [if_true]
  rw [update_vault_balances_err hv (if_neg (not_le.mpr hl))]

lemma transfer_insufficient (cso : Bool) (st : SysState) (o o2 c : String) (a : Int)
    (v : VaultRow) (hv : getVault st.db o = some v) (ha : v.available_balance < a) :
    VaultService.transfer_collateral true cso st o o2 a c =
      (Except.error "Insufficient available balance",
       { st with built_txs := st.built_txs + 1,
                 submit_attempts := st.submit_attempts + 1,
                 submitted := st.submitted + 1 }) := by
  unfold VaultService.transfer_collateral VaultService.buildAndAttempt
  simp only [if_true]
  rw [update_vault_balances_err hv (if_neg (not_le.mpr ha))]

lemma withdraw_vm_insufficient (so : Bool) (st : SysState) (o sig : String) (a av : Int)
    (hav : av < a) :
    VaultManager.withdraw_collateral so st o a sig (some av) =
      (Except.error "InsufficientBalance", st) := by
  unfold VaultManager.withdraw_collateral VaultManager.verify_signature
  simp [hav]

end C1Helpers

/-! ## Claim C1: precondition checking versus ledger interaction -/

/-- C1 counterexample: locking 5 on a vault with available balance 0
returns the insufficient-balance error, yet one transaction has been
built and one submission attempted — the precondition failure did not
prevent the Transaction Builder and Ledger Client from being invoked. -/
theorem C1_counterexample :
    (VaultService.lock_collateral true
      (SysState.mk [VaultRow.mk "A" "vault:A" 0 0 0 0 0] [] [] [] 0 0 0)
      "A" 5 "P").1 = Except.error "Insufficient available balance" ∧
    (VaultService.lock_collateral true
      (SysState.mk [VaultRow.mk "A" "vault:A" 0 0 0 0 0] [] [] [] 0 0 0)
      "A" 5 "P").2.built_txs = 1 ∧
    (VaultService.lock_collateral true
      (SysState.mk [VaultRow.mk "A" "vault:A" 0 0 0 0 0] [] [] [] 0 0 0)
      "A" 5 "P").2.submit_attempts = 1 := by
  refine ⟨?_, ?_, ?_⟩ <;> rfl

/-- C1 (amended): in the Consistency Engine's lock, unlock and transfer
the balance precondition is evaluated only inside the mirror update,
AFTER the transaction is built and submitted: a failing precondition
yields the insufficient-balance error and leaves the mirror rows and
audit events unchanged, but one transaction has been built and one
submission attempted.  Only `VaultManager::withdraw_collateral` rejects
`InsufficientBalance` before submitting (judged against the fetched
on-chain state), leaving the whole state untouched. -/
theorem C1_precondition_failure_after_submission (st : SysState)
    (o o2 c sig : String) (a av : Int) (v : VaultRow)
    (hv : getVault st.db o = some v)
    (ha : v.available_balance < a) (hl : v.locked_balance < a) (hav : av < a) :
    (VaultService.lock_collateral true st o a c).1 =
        Except.error "Insufficient available balance" ∧
    (VaultService.lock_collateral true st o a c).2.db = st.db ∧
    (VaultService.lock_collateral true st o a c).2.events = st.events ∧
    (VaultService.lock_collateral true st o a c).2.built_txs = st.built_txs + 1 ∧
    (VaultService.lock_collateral true st o a c).2.submit_attempts = st.submit_attempts + 1 ∧
    (VaultService.unlock_collateral true st o a c).1 =
        Except.error "Insufficient locked balance" ∧
    (VaultService.unlock_collateral true st o a c).2.db = st.db ∧
    (VaultService.unlock_collateral true st o a c).2.built_txs = st.built_txs + 1 ∧
    (VaultService.transfer_collateral true true st o o2 a c).1 =
        Except.error "Insufficient available balance" ∧
    (VaultService.transfer_collateral true true st o o2 a c).2.db = st.db ∧
    (VaultService.transfer_collateral true true st o o2 a c).2.built_txs = st.built_txs + 1 ∧
    (VaultManager.withdraw_collateral true st o a sig (some av)).1 =
        Except.error "InsufficientBalance" ∧
    (VaultManager.withdraw_collateral true st o a sig (some av)).2 = st := by
  rw [C1Helpers.lock_insufficient st o c a v hv ha,
      C1Helpers.unlock_insufficient st o c a v hv hl,
      C1Helpers.transfer_insufficient true st o o2 c a v hv ha,
      C1Helpers.withdraw_vm_insufficient true st o sig a av hav]
  refine ⟨rfl, rfl, rfl, rfl, rfl, rfl, rfl, rfl, rfl, rfl, rfl, rfl, rfl⟩

/-- Witness for C1's amended theorem at a concrete state: owner "A" with
all balances 0, requested amount 5. -/
theorem C1_precondition_failure_after_submission_witness :
    getVault (SysState.mk [VaultRow.mk "A" "vault:A" 0 0 0 0 0] [] [] [] 0 0 0).db "A" =
      some (VaultRow.mk "A" "vault:A" 0 0 0 0 0) ∧
    (VaultRow.mk "A" "vault:A" 0 0 0 0 0).available_balance < 5 ∧
    (VaultService.unlock_collateral true
      (SysState.mk [VaultRow.mk "A" "vault:A" 0 0 0 0 0] [] [] [] 0 0 0)
      "A" 5 "P").1 = Except.error "Insufficient locked balance" :=
  ⟨rfl, by decide,
    (C1_precondition_failure_after_submission
      (SysState.mk [VaultRow.mk "A" "vault:A" 0 0 0 0 0] [] [] [] 0 0 0)
      "A" "B" "P" "sig" 5 0 (VaultRow.mk "A" "vault:A" 0 0 0 0 0)
      rfl (by decide) (by decide) (by decide)).2.2.2.2.2.1⟩

/-- C2: when `send_transaction` fails, every balance-changing operation
returns an error and applies no mirror delta and no audit append — the
`?` on the submission call aborts each operation before any store
write. -/
theorem C2_submit_failure_no_side_effects (st : SysState)
    (o o2 mint caller sig : String) (amount : Int)
    (fetch_ok credit_ok : Bool) (av : Int) :
    FailedWithMirrorUnchanged (VaultService.initialize_vault false st o mint) st ∧
    FailedWithMirrorUnchanged (VaultService.deposit_collateral false st o amount) st ∧
    FailedWithMirrorUnchanged (VaultService.withdraw_collateral false st o amount) st ∧
    FailedWithMirrorUnchanged (VaultService.lock_collateral false st o amount caller) st ∧
    FailedWithMirrorUnchanged (VaultService.unlock_collateral false st o amount caller) st ∧
    FailedWithMirrorUnchanged
      (VaultService.transfer_collateral false credit_ok st o o2 amount caller) st ∧
    FailedWithMirrorUnchanged
      (VaultManager.deposit_collateral fetch_ok false st o amount sig) st ∧
    FailedWithMirrorUnchanged
      (VaultManager.withdraw_collateral false st o amount sig (some av)) st := by
  refine ⟨?_, ?_, ?_, ?_, ?_, ?_, ?_, ?_⟩
  · simp [FailedWithMirrorUnchanged, VaultService.initialize_vault, VaultService.buildAndAttempt,
      Except.isOk, Except.toBool]
  · simp [FailedWithMirrorUnchanged, VaultService.deposit_collateral, VaultService.buildAndAttempt,
      Except.isOk, Except.toBool]
  · simp [FailedWithMirrorUnchanged, VaultService.withdraw_collateral, VaultService.buildAndAttempt,
      Except.isOk, Except.toBool]
  · simp [FailedWithMirrorUnchanged, VaultService.lock_collateral, VaultService.buildAndAttempt,
      Except.isOk, Except.toBool]
  · simp [FailedWithMirrorUnchanged, VaultService.unlock_collateral, VaultService.buildAndAttempt,
      Except.isOk, Except.toBool]
  · simp [FailedWithMirrorUnchanged, VaultService.transfer_collateral, VaultService.buildAndAttempt,
      Except.isOk, Except.toBool]
  · cases fetch_ok <;>
      simp [FailedWithMirrorUnchanged, VaultManager.deposit_collateral,
        VaultManager.verify_signature, VaultManager.deposit_collateral.buildAndAttempt,
        Except.isOk, Except.toBool]
  · by_cases hav : av < amount <;>
      simp [FailedWithMirrorUnchanged, VaultManager.withdraw_collateral,
        VaultManager.verify_signature, hav, Except.isOk, Except.toBool]

/-- C3: invariant I1 holds after every sequence of engine operations
(quantifying over all sequences also settles every intermediate state,
by instantiating with the corresponding prefix). -/
theorem C3_invariant_I1_preserved (ops : List Op) (st : SysState)
    (h : AllI1 st.db) : AllI1 (execList ops st).db := by
  induction ops generalizing st with
  | nil => exact h
  | cons op rest ih => exact ih (execOp op st) (AllI1_execOp op st h)

/-- Witness for C3 on the spec's §8 scenario (initialize, deposit 1000,
lock 400, unlock 400, withdraw 1000, a transfer and a reconciliation). -/
theorem C3_invariant_I1_preserved_witness :
    AllI1 (SysState.mk [] [] [] [] 0 0 0).db ∧
    AllI1 (execList
      [Op.init "A" "usdt", Op.deposit "A" 1000, Op.lock "A" 400 "P",
       Op.unlock "A" 400 "P", Op.withdraw "A" 1000 1000, Op.init "B" "usdt",
       Op.transfer "A" "B" 0 "P", Op.reconcile "A" 5]
      (SysState.mk [] [] [] [] 0 0 0)).db :=
  ⟨by decide, C3_invariant_I1_preserved _ _ (by decide)⟩

/-! ## Claim C4: deposit delta and the cumulative counters -/

/-- C4 counterexample: a successful deposit of 5 into a vault whose
`total_deposited` is 7 leaves `total_deposited` at 7 —
`update_vault_balance` touches only the three balance columns, so the
cumulative counter does not increase by the amount. -/
theorem C4_counterexample :
    (VaultManager.deposit_collateral true true
      (SysState.mk [VaultRow.mk "A" "vault:A" 10 0 10 7 0] [] [] [] 0 0 0)
      "A" 5 "s").1.isOk = true ∧
    Option.map VaultRow.total_deposited
      (getVault (VaultManager.deposit_collateral true true
        (SysState.mk [VaultRow.mk "A" "vault:A" 10 0 10 7 0] [] [] [] 0 0 0)
        "A" 5 "s").2.db "A") = some 7 ∧
    (7 : Int) ≠ 7 + 5 := by
  refine ⟨rfl, rfl, by decide⟩

/-- C4 (amended): a successful deposit of `a > 0` into an existing vault
applies exactly `total_balance += a` and `available_balance += a`;
`total_deposited` (like `total_withdrawn`) is never modified by any
engine operation — every resulting row either inherits both cumulative
counters unchanged from a row of the same owner or is a fresh
initialization where both are 0, so both counters are (trivially)
monotonically non-decreasing. -/
theorem C4_deposit_delta_and_counters (st : SysState) (o sig : String) (a : Int)
    (v : VaultRow) (hv : getVault st.db o = some v) (_hpos : 0 < a) :
    (VaultManager.deposit_collateral true true st o a sig).1.isOk = true ∧
    getVault (VaultManager.deposit_collateral true true st o a sig).2.db o =
      some { v with total_balance := v.total_balance + a,
                    available_balance := v.available_balance + a } ∧
    (∀ (op : Op) (st2 : SysState), DepWdTraced st2.db (execOp op st2).db) := by
  refine ⟨?_, ?_, fun op st2 => DepWdTraced_execOp op st2⟩
  · simp [VaultManager.deposit_collateral, VaultManager.verify_signature,
      VaultManager.deposit_collateral.buildAndAttempt, Except.isOk, Except.toBool]
  · unfold VaultManager.deposit_collateral VaultManager.verify_signature
      VaultManager.deposit_collateral.buildAndAttempt
    simp only [if_true]
    unfold Database.update_vault_balance
    rw [getVault_applyDelta, hv]
    simp [applyDelta]

/-- Witness for C4's amended theorem: deposit 5 into owner "A" whose row
holds `total_deposited = 7`. -/
theorem C4_deposit_delta_and_counters_witness :
    getVault (SysState.mk [VaultRow.mk "A" "vault:A" 10 0 10 7 0] [] [] [] 0 0 0).db "A" =
      some (VaultRow.mk "A" "vault:A" 10 0 10 7 0) ∧
    (0 : Int) < 5 ∧
    (VaultManager.deposit_collateral true true
      (SysState.mk [VaultRow.mk "A" "vault:A" 10 0 10 7 0] [] [] [] 0 0 0)
      "A" 5 "s").1.isOk = true :=
  ⟨rfl, by decide,
    (C4_deposit_delta_and_counters
      (SysState.mk [VaultRow.mk "A" "vault:A" 10 0 10 7 0] [] [] [] 0 0 0)
      "A" "s" 5 (VaultRow.mk "A" "vault:A" 10 0 10 7 0) rfl (by decide)).1⟩

/-! ## Claim C5: transfer atomicity -/

/-- C5 counterexample: transferring 300 from "A" (available 1000) to "B"
with the second store call failing leaves "A" debited to 700 while "B"
is unchanged — a mid-transfer store failure does NOT leave both rows
unchanged, because the debit and credit are two independent updates. -/
theorem C5_counterexample :
    (VaultService.transfer_collateral true false
      (SysState.mk [VaultRow.mk "A" "va" 1000 0 1000 0 0,
        VaultRow.mk "B" "vb" 0 0 0 0 0] [] [] [] 0 0 0)
      "A" "B" 300 "P").1 = Except.error "Mirror store failure" ∧
    getVault (VaultService.transfer_collateral true false
      (SysState.mk [VaultRow.mk "A" "va" 1000 0 1000 0 0,
        VaultRow.mk "B" "vb" 0 0 0 0 0] [] [] [] 0 0 0)
      "A" "B" 300 "P").2.db "A" = some (VaultRow.mk "A" "va" 700 0 700 0 0) ∧
    getVault (VaultService.transfer_collateral true false
      (SysState.mk [VaultRow.mk "A" "va" 1000 0 1000 0 0,
        VaultRow.mk "B" "vb" 0 0 0 0 0] [] [] [] 0 0 0)
      "A" "B" 300 "P").2.db "B" = some (VaultRow.mk "B" "vb" 0 0 0 0 0) := by
  refine ⟨?_, ?_, ?_⟩ <;> rfl

/-- C5 (amended): the transfer applies the sender debit and the
recipient credit as two independent sequential mirror updates.  When
both store calls succeed both deltas are applied, but a store failure
between them returns an error with the sender's row already debited and
the recipient's row unchanged — the pair is not atomic. -/
theorem C5_transfer_two_updates (st : SysState) (fo to_ c : String) (a : Int)
    (vf vt : VaultRow)
    (hvf : getVault st.db fo = some vf) (hvt : getVault st.db to_ = some vt)
    (ha : a ≤ vf.available_balance) (hne : to_ ≠ fo) :
    ((VaultService.transfer_collateral true true st fo to_ a c).1.isOk = true ∧
     getVault (VaultService.transfer_collateral true true st fo to_ a c).2.db fo =
       some { vf with available_balance := vf.available_balance - a,
                      total_balance := vf.total_balance - a } ∧
     getVault (VaultService.transfer_collateral true true st fo to_ a c).2.db to_ =
       some { vt with available_balance := vt.available_balance + a,
                      total_balance := vt.total_balance + a }) ∧
    ((VaultService.transfer_collateral true false st fo to_ a c).1 =
       Except.error "Mirror store failure" ∧
     getVault (VaultService.transfer_collateral true false st fo to_ a c).2.db fo =
       some { vf with available_balance := vf.available_balance - a,
                      total_balance := vf.total_balance - a } ∧
     getVault (VaultService.transfer_collateral true false st fo to_ a c).2.db to_ =
       some vt ∧
     (VaultService.transfer_collateral true false st fo to_ a c).2.events = st.events) := by
  have hfown : vf.owner = fo := getVault_owner hvf
  have htoown : vt.owner = to_ := getVault_owner hvt
  have hdeb := update_vault_balances_ok
    (f := fun w : VaultRow => if a ≤ w.available_balance
      then Except.ok { w with available_balance := w.available_balance - a,
                              total_balance := w.total_balance - a }
      else Except.error "Insufficient available balance")
    hvf (if_pos ha)
  have hdb1fo : getVault (updateOwner st.db fo
      (fun _ => { vf with available_balance := vf.available_balance - a,
                          total_balance := vf.total_balance - a })) fo =
      some { vf with available_balance := vf.available_balance - a,
                     total_balance := vf.total_balance - a } :=
    getVault_set_self hvf hfown
  have hdb1to : getVault (updateOwner st.db fo
      (fun _ => { vf with available_balance := vf.available_balance - a,
                          total_balance := vf.total_balance - a })) to_ =
      some vt :=
    getVault_set_other hne hfown hvt
  have hcred := update_vault_balances_ok
    (f := fun w : VaultRow =>
      Except.ok { w with available_balance := w.available_balance + a,
                         total_balance := w.total_balance + a })
    hdb1to rfl
  constructor
  · unfold VaultService.transfer_collateral VaultService.buildAndAttempt
      VaultService.log_vault_event
    simp only [if_true]
    rw [hdeb]
    simp only []
    rw [hcred]
    refine ⟨rfl, ?_, ?_⟩
    · exact getVault_set_other (fun e => hne e.symm) htoown hdb1fo
    · exact getVault_set_self hdb1to htoown
  · unfold VaultService.transfer_collateral VaultService.buildAndAttempt
      VaultService.log_vault_event
    simp only [if_true]
    rw [hdeb]
    exact ⟨rfl, hdb1fo, hdb1to, rfl⟩

/-- Witness for C5's amended theorem: transfer 300 from "A" (available
1000) to "B" (available 0), matching the spec's §8 transfer scenario. -/
theorem C5_transfer_two_updates_witness :
    getVault (SysState.mk [VaultRow.mk "A" "va" 1000 0 1000 0 0,
        VaultRow.mk "B" "vb" 0 0 0 0 0] [] [] [] 0 0 0).db "A" =
      some (VaultRow.mk "A" "va" 1000 0 1000 0 0) ∧
    getVault (SysState.mk [VaultRow.mk "A" "va" 1000 0 1000 0 0,
        VaultRow.mk "B" "vb" 0 0 0 0 0] [] [] [] 0 0 0).db "B" =
      some (VaultRow.mk "B" "vb" 0 0 0 0 0) ∧
    (300 : Int) ≤ 1000 ∧
    (VaultService.transfer_collateral true true
      (SysState.mk [VaultRow.mk "A" "va" 1000 0 1000 0 0,
        VaultRow.mk "B" "vb" 0 0 0 0 0] [] [] [] 0 0 0)
      "A" "B" 300 "P").1.isOk = true :=
  ⟨rfl, rfl, by decide,
    (C5_transfer_two_updates
      (SysState.mk [VaultRow.mk "A" "va" 1000 0 1000 0 0,
        VaultRow.mk "B" "vb" 0 0 0 0 0] [] [] [] 0 0 0)
      "A" "B" "P" 300
      (VaultRow.mk "A" "va" 1000 0 1000 0 0) (VaultRow.mk "B" "vb" 0 0 0 0 0)
      rfl rfl (by decide) (by decide)).1.1⟩

/-! ## Claims C6 and C7: reconciliation auto-correction -/

/-- C6: a discrepancy of absolute value exactly
`correction_threshold - 1` (= 999) is auto-corrected — the discrepancy
is added to the vault's total and available balances — while a
discrepancy of absolute value exactly `correction_threshold` (= 1000)
appends a reconciliation log row but leaves the vault table
unchanged. -/
theorem C6_threshold_boundary (st : SysState) (v : VaultRow) (onchain : Int)
    (hv : getVault st.db v.owner = some v) :
    ((onchain - v.total_balance).natAbs = BalanceTracker.correction_threshold - 1 →
      getVault (BalanceTracker.reconcile_vault st v onchain).1.db v.owner =
        some { v with
          total_balance := v.total_balance + (onchain - v.total_balance),
          available_balance := v.available_balance + (onchain - v.total_balance) }) ∧
    ((onchain - v.total_balance).natAbs = BalanceTracker.correction_threshold →
      (BalanceTracker.reconcile_vault st v onchain).1.db = st.db ∧
      (BalanceTracker.reconcile_vault st v onchain).1.recon_logs =
        st.recon_logs ++ [ReconLog.mk v.owner onchain v.total_balance
          (onchain - v.total_balance)]) := by
  constructor
  · intro h999
    have hnz : onchain - v.total_balance ≠ 0 := by
      intro h0
      rw [h0] at h999
      simp [BalanceTracker.correction_threshold] at h999
    have hsmall : (onchain - v.total_balance).natAbs <
        BalanceTracker.correction_threshold := by
      rw [h999]
      decide
    unfold BalanceTracker.reconcile_vault
    simp only [if_neg hnz, if_pos hsmall]
    unfold Database.update_vault_balance
    rw [getVault_applyDelta, hv]
    simp [applyDelta]
  · intro h1000
    have hnz : onchain - v.total_balance ≠ 0 := by
      intro h0
      rw [h0] at h1000
      simp [BalanceTracker.correction_threshold] at h1000
    have hbig : ¬ ((onchain - v.total_balance).natAbs <
        BalanceTracker.correction_threshold) := by
      rw [h1000]
      exact lt_irrefl _
    unfold BalanceTracker.reconcile_vault
    simp only [if_neg hnz, if_neg hbig]
    constructor <;> trivial

/-- Witness for C6 at a vault with mirror total 0: on-chain 999 is
auto-corrected, on-chain 1000 is only logged. -/
theorem C6_threshold_boundary_witness :
    getVault (SysState.mk [VaultRow.mk "A" "va" 0 0 0 0 0] [] [] [] 0 0 0).db "A" =
      some (VaultRow.mk "A" "va" 0 0 0 0 0) ∧
    getVault (BalanceTracker.reconcile_vault
      (SysState.mk [VaultRow.mk "A" "va" 0 0 0 0 0] [] [] [] 0 0 0)
      (VaultRow.mk "A" "va" 0 0 0 0 0) 999).1.db "A" =
      some (VaultRow.mk "A" "va" 999 0 999 0 0) ∧
    (BalanceTracker.reconcile_vault
      (SysState.mk [VaultRow.mk "A" "va" 0 0 0 0 0] [] [] [] 0 0 0)
      (VaultRow.mk "A" "va" 0 0 0 0 0) 1000).1.db =
      [VaultRow.mk "A" "va" 0 0 0 0 0] :=
  ⟨rfl,
    (C6_threshold_boundary
      (SysState.mk [VaultRow.mk "A" "va" 0 0 0 0 0] [] [] [] 0 0 0)
      (VaultRow.mk "A" "va" 0 0 0 0 0) 999 rfl).1 (by decide),
    ((C6_threshold_boundary
      (SysState.mk [VaultRow.mk "A" "va" 0 0 0 0 0] [] [] [] 0 0 0)
      (VaultRow.mk "A" "va" 0 0 0 0 0) 1000 rfl).2 (by decide)).1⟩

/-- C7: an auto-corrected vault receives the discrepancy on
`total_balance` and `available_balance` only — `locked_balance`,
`total_deposited`, `total_withdrawn`, owner and address are unchanged
(visible in the updated row), every row of another owner is untouched,
and the reconciliation pass appends no vault event and no transaction
record. -/
theorem C7_autocorrect_frame (st : SysState) (v : VaultRow) (onchain : Int)
    (hv : getVault st.db v.owner = some v)
    (hnz : onchain - v.total_balance ≠ 0)
    (hsmall : (onchain - v.total_balance).natAbs < BalanceTracker.correction_threshold) :
    getVault (BalanceTracker.reconcile_vault st v onchain).1.db v.owner =
      some { v with
        total_balance := v.total_balance + (onchain - v.total_balance),
        available_balance := v.available_balance + (onchain - v.total_balance) } ∧
    (∀ w ∈ (BalanceTracker.reconcile_vault st v onchain).1.db,
      w.owner ≠ v.owner → w ∈ st.db) ∧
    (BalanceTracker.reconcile_vault st v onchain).1.events = st.events ∧
    (BalanceTracker.reconcile_vault st v onchain).1.tx_records = st.tx_records := by
  unfold BalanceTracker.reconcile_vault
  simp only [if_neg hnz, if_pos hsmall]
  refine ⟨?_, ?_, by trivial, by trivial⟩
  · unfold Database.update_vault_balance
    rw [getVault_applyDelta, hv]
    simp [applyDelta]
  · intro w hw hwo
    unfold Database.update_vault_balance at hw
    rcases mem_updateOwner hw with ⟨u, hu, huo, he⟩ | hm
    · exact absurd (by rw [he]; exact huo) hwo
    · exact hm

/-- Witness for C7: mirror total 0, on-chain 5 (discrepancy 5, below
the threshold), with a locked balance of 2 left untouched. -/
theorem C7_autocorrect_frame_witness :
    getVault (SysState.mk [VaultRow.mk "A" "va" 2 2 0 0 0] [] [] [] 0 0 0).db "A" =
      some (VaultRow.mk "A" "va" 2 2 0 0 0) ∧
    ((5 : Int) - 2 ≠ 0) ∧ (((5 : Int) - 2).natAbs < BalanceTracker.correction_threshold) ∧
    getVault (BalanceTracker.reconcile_vault
      (SysState.mk [VaultRow.mk "A" "va" 2 2 0 0 0] [] [] [] 0 0 0)
      (VaultRow.mk "A" "va" 2 2 0 0 0) 5).1.db "A" =
      some (VaultRow.mk "A" "va" 5 2 3 0 0) :=
  ⟨rfl, by decide, by decide,
    (C7_autocorrect_frame
      (SysState.mk [VaultRow.mk "A" "va" 2 2 0 0 0] [] [] [] 0 0 0)
      (VaultRow.mk "A" "va" 2 2 0 0 0) 5 rfl (by decide) (by decide)).1⟩

/-! ## Claim C10: unconditional recipient credit -/

/-- C10: the recipient-side credit of a transfer has no precondition
and no existence check — when the sender debit succeeds and no mirror
row exists for the recipient, the credit update matches zero rows, the
operation still reports success, and the final state has the sender
debited with the recipient still absent from the mirror. -/
theorem C10_missing_recipient_credit_noop (st : SysState) (fo to_ c : String)
    (a : Int) (vf : VaultRow)
    (hvf : getVault st.db fo = some vf) (ha : a ≤ vf.available_balance)
    (hto : getVault st.db to_ = none) :
    (VaultService.transfer_collateral true true st fo to_ a c).1.isOk = true ∧
    getVault (VaultService.transfer_collateral true true st fo to_ a c).2.db fo =
      some { vf with available_balance := vf.available_balance - a,
                     total_balance := vf.total_balance - a } ∧
    getVault (VaultService.transfer_collateral true true st fo to_ a c).2.db to_ =
      none := by
  have hfown : vf.owner = fo := getVault_owner hvf
  have hne : to_ ≠ fo := by
    intro e
    rw [e, hvf] at hto
    cases hto
  have hdeb := update_vault_balances_ok
    (f := fun w : VaultRow => if a ≤ w.available_balance
      then Except.ok { w with available_balance := w.available_balance - a,
                              total_balance := w.total_balance - a }
      else Except.error "Insufficient available balance")
    hvf (if_pos ha)
  have hdb1fo : getVault (updateOwner st.db fo
      (fun _ => { vf with available_balance := vf.available_balance - a,
                          total_balance := vf.total_balance - a })) fo =
      some { vf with available_balance := vf.available_balance - a,
                     total_balance := vf.total_balance - a } :=
    getVault_set_self hvf hfown
  have hdb1to : getVault (updateOwner st.db fo
      (fun _ => { vf with available_balance := vf.available_balance - a,
                          total_balance := vf.total_balance - a })) to_ =
      none :=
    getVault_set_other hne hfown hto
  have hcred := update_vault_balances_none
    (f := fun w : VaultRow =>
      Except.ok { w with available_balance := w.available_balance + a,
                         total_balance := w.total_balance + a })
    hdb1to
  unfold VaultService.transfer_collateral VaultService.buildAndAttempt
    VaultService.log_vault_event
  simp only [if_true]
  rw [hdeb]
  simp only []
  rw [hcred]
  exact ⟨rfl, hdb1fo, hdb1to⟩

/-- Witness for C10: transfer 300 from "A" (available 1000) to the
absent owner "Z". -/
theorem C10_missing_recipient_credit_noop_witness :
    getVault (SysState.mk [VaultRow.mk "A" "va" 1000 0 1000 0 0] [] [] [] 0 0 0).db "A" =
      some (VaultRow.mk "A" "va" 1000 0 1000 0 0) ∧
    (300 : Int) ≤ 1000 ∧
    getVault (SysState.mk [VaultRow.mk "A" "va" 1000 0 1000 0 0] [] [] [] 0 0 0).db "Z" =
      none ∧
    (VaultService.transfer_collateral true true
      (SysState.mk [VaultRow.mk "A" "va" 1000 0 1000 0 0] [] [] [] 0 0 0)
      "A" "Z" 300 "P").1.isOk = true :=
  ⟨rfl, by decide, rfl,
    (C10_missing_recipient_credit_noop
      (SysState.mk [VaultRow.mk "A" "va" 1000 0 1000 0 0] [] [] [] 0 0 0)
      "A" "Z" "P" 300 (VaultRow.mk "A" "va" 1000 0 1000 0 0)
      rfl (by decide) rfl).1⟩

/-- C8 counterexample: a builder holding zero business instructions
still builds successfully — `TransactionBuilder::build` performs no
emptiness check and returns `Ok`. -/
theorem C8_counterexample :
    (TransactionBuilder.new "payer" 0).instructions = [] ∧
    ((TransactionBuilder.new "payer" 0).build).isOk = true :=
  ⟨rfl, rfl⟩

/-- C8 (amended): `TransactionBuilder::build` never fails — for every
builder state, including one with an empty instruction list, it returns
a transaction envelope rather than an error. -/
theorem C8_build_never_fails (b : TransactionBuilder) :
    (b.build).isOk = true := rfl

/-- C9: building with a priority fee yields the compute-budget
price-setting instruction first, followed by the business instructions
in insertion order; without a priority fee the instruction list is
exactly the business instructions; in both cases the fee payer is the
first signer and additional signers follow in call order. -/
theorem C9_priority_fee_and_signers (payer : String) (bh : Nat)
    (ixs : List Instruction) (extra : List String) (f : Nat) :
    ((((TransactionBuilder.new payer bh).add_instructions ixs).add_signers extra).set_priority_fee f).build =
      .ok { instructions := set_compute_unit_price f :: ixs, fee_payer := payer,
            signatures := payer :: extra, recent_blockhash := bh } ∧
    (((TransactionBuilder.new payer bh).add_instructions ixs).add_signers extra).build =
      .ok { instructions := ixs, fee_payer := payer,
            signatures := payer :: extra, recent_blockhash := bh } := by
  rw [add_instructions_eq, add_signers_eq]
  constructor
  · simp [TransactionBuilder.new, TransactionBuilder.set_priority_fee, TransactionBuilder.build]
  · simp [TransactionBuilder.new, TransactionBuilder.build]

end CollateralVault
